import Mathlib

/-!
Verification development for the rippled server front end
(`src/ripple/server/impl/ServerHandlerImp.cpp`).

The C++ source is shallowly embedded: each function of the source that the
properties below talk about (`onAccept`, `onClose`, `onHandoff`,
`isWebsocketUpgrade`, `authorized`, `processRequest`) is translated into an
executable Lean definition.  External collaborators that the source calls but
that are not part of the excerpt (the JSON library, `beast::base64_decode`,
`RPC::requestRole`, `RPC::roleRequired`, the resource manager, the command
executor) are either modelled from the specification (marked in their doc
comments) or kept abstract as parameters.
-/

/-- String and character literals used throughout; kept as named constants. -/
def unableMsg : String := "Unable to parse request"

def nullMethodMsg : String := "Null method"

def notStringMsg : String := "method is not string"

def emptyMethodMsg : String := "method is empty"

def overloadedMsg : String := "Server is overloaded"

def paramsMsg : String := "params unparseable"

def forbiddenMsg : String := "Forbidden"

def idKey : String := "id"

def methodKey : String := "method"

def paramsKey : String := "params"

def commandKey : String := "command"

def errorKey : String := "error"

def statusKey : String := "status"

def requestKey : String := "request"

def resultKey : String := "result"

def successVal : String := "success"

def newlineStr : String := "\n"

def trueLit : String := "true"

def falseLit : String := "false"

def nullLit : String := "null"

def emptyStr : String := ""

def commaStr : String := ","

def colonStr : String := ":"

def quoteStr : String := "\""

def lbraceStr : String := "\x7b"

def rbraceStr : String := "\x7d"

def lbrackStr : String := "["

def rbrackStr : String := "]"

/-- JSON values, modelling `Json::Value` of the ripple JSON library (outside
`src/`, modelled from the spec's JSON data model).  Objects are association
lists kept sorted by key, mirroring the `std::map` member storage of
`Json::Value` (iteration and hence serialization is in key order). -/
inductive Json where
  | null : Json
  | bool : Bool → Json
  | num : Int → Json
  | str : String → Json
  | arr : List Json → Json
  | obj : List (String × Json) → Json

/-- Json::Value::isObject. -/
def Json.isObject : Json → Bool
  | Json.obj _ => true
  | _ => false

/-- Json::Value::isArray. -/
def Json.isArray : Json → Bool
  | Json.arr _ => true
  | _ => false

/-- Json::Value::isString. -/
def Json.isString : Json → Bool
  | Json.str _ => true
  | _ => false

/-- Json::Value::isNull; this is also the meaning of the implicit falsiness
test `! value` used by the source (`operator!` returns `isNull()`). -/
def Json.isNull : Json → Bool
  | Json.null => true
  | _ => false

/-- Member lookup `value[key]` on a (const) object: the member's value, or
null when the member is missing or the value is not an object. -/
def Json.get : Json → String → Json
  | Json.obj fields, k => ((fields.lookup k).getD Json.null)
  | _, _ => Json.null

/-- Json::Value::isMember. -/
def Json.hasMember : Json → String → Bool
  | Json.obj fields, k => (fields.lookup k).isSome
  | _, _ => false

/-- Element access `value[i]` on an array. -/
def Json.arrGet : Json → Nat → Json
  | Json.arr xs, i => xs.getD i Json.null
  | _, _ => Json.null

/-- Json::Value::size for arrays (only used after an `isArray` check). -/
def Json.arrSize : Json → Nat
  | Json.arr xs => xs.length
  | _ => 0

/-- Insert or replace a key in a sorted association list (the `std::map`
backing of `Json::Value` objects orders members by key). -/
def insertKV : List (String × Json) → String → Json → List (String × Json)
  | [], k, v => [(k, v)]
  | (k0, v0) :: rest, k, v =>
    if k < k0 then (k, v) :: (k0, v0) :: rest
    else if k = k0 then (k, v) :: rest
    else (k0, v0) :: insertKV rest k v

/-- Member assignment `value[key] = v`.  On an object this inserts or replaces
the member; on null it first converts the value to an empty object, as
`Json::Value::operator[]` does.  (The source only ever assigns members of
objects or null values.) -/
def Json.set : Json → String → Json → Json
  | Json.obj fields, k, v => Json.obj (insertKV fields k v)
  | _, k, v => Json.obj [(k, v)]

/-- Json::Value::asString, modelled from the spec: the spec's end-to-end
example passes a numeric `id` to role resolution, so non-string scalars are
rendered totally (the JSON library itself is outside `src/`). -/
def Json.asString : Json → String
  | Json.str s => s
  | Json.null => emptyStr
  | Json.bool b => if b then trueLit else falseLit
  | Json.num n => toString n
  | _ => emptyStr

/-- Hexadecimal digit for the control-character escape of the writer. -/
def hexDigit (n : Nat) : String :=
  String.singleton (if n < 10 then Char.ofNat (48 + n) else Char.ofNat (87 + n))

/-- Escape one character as the compact JSON writer does. -/
def escChar (c : Char) : String :=
  if c = '\"' then "\\\""
  else if c = '\\' then "\\\\"
  else if c = '\n' then "\\n"
  else if c = '\r' then "\\r"
  else if c = '\t' then "\\t"
  else if c.toNat < 32 then
    "\\u00" ++ hexDigit (c.toNat / 16) ++ hexDigit (c.toNat % 16)
  else String.singleton c

/-- Quote a string as the compact JSON writer does. -/
def quoteJson (s : String) : String :=
  quoteStr ++ String.join (s.data.map escChar) ++ quoteStr

mutual

/-- Compact serialization, modelling `to_string(Json::Value)` (FastWriter,
no trailing newline); object members are written in key order. -/
def Json.serialize : Json → String
  | Json.null => nullLit
  | Json.bool b => if b then trueLit else falseLit
  | Json.num n => toString n
  | Json.str s => quoteJson s
  | Json.arr xs => lbrackStr ++ serializeItems xs ++ rbrackStr
  | Json.obj fs => lbraceStr ++ serializeMembers fs ++ rbraceStr

/-- Comma-separated serialization of array elements. -/
def serializeItems : List Json → String
  | [] => emptyStr
  | [x] => Json.serialize x
  | x :: y :: rest => Json.serialize x ++ commaStr ++ serializeItems (y :: rest)

/-- Comma-separated serialization of object members. -/
def serializeMembers : List (String × Json) → String
  | [] => emptyStr
  | [(k, v)] => quoteJson k ++ colonStr ++ Json.serialize v
  | (k, v) :: m :: rest =>
    quoteJson k ++ colonStr ++ Json.serialize v ++ commaStr ++
      serializeMembers (m :: rest)

end

/-! Ports, roles and the role resolver. -/

/-- Protocol and listener-configuration names used by the dispatcher. -/
def wssProt : String := "wss"

def wsProt : String := "ws"

def peerProt : String := "peer"

def httpProt : String := "http"

def httpsProt : String := "https"

def websocketVal : String := "websocket"

def upgradeKey : String := "Upgrade"

def authKey : String := "authorization"

def basicPrefix : String := "Basic "

def adminUserKey : String := "admin_user"

def adminPasswordKey : String := "admin_password"

/-- A configured listener, modelling `Port` (ripple/server/Port.h): the fields
`ServerHandlerImp.cpp` reads.  `limit = 0` means no connection limit. -/
structure Port where
  name : String := emptyStr
  protocol : List String := []
  user : String := emptyStr
  password : String := emptyStr
  admin_ip : List String := []
  admin_user : String := emptyStr
  admin_password : String := emptyStr
  secure_gateway_ip : String := emptyStr
  limit : Nat := 0
deriving DecidableEq

/-- Capability tiers, modelled from the spec (`Role` is declared outside
`src/`): Forbidden, Guest, Identified, Administrator, Unlimited. -/
inductive Role where
  | FORBID : Role
  | GUEST : Role
  | IDENTIFIED : Role
  | ADMIN : Role
  | UNLIMITED : Role
deriving DecidableEq

/-- Modelled from the spec: privileged roles use the distinguished unlimited
resource handle (`isUnlimited` is declared outside `src/`). -/
def isUnlimited (r : Role) : Bool :=
  r = Role.ADMIN ∨ r = Role.UNLIMITED

/-- Modelled from the spec: administrator credential check against the port's
optional administrator credentials, using the role-resolution hint object
(spec section 3, "optional administrator IP allow-list and administrator
credentials"). -/
def adminCredsOk (port : Port) (hint : Json) : Bool :=
  if port.admin_user = emptyStr ∧ port.admin_password = emptyStr then true
  else
    (hint.get adminUserKey).isString ∧
    (hint.get adminUserKey).asString = port.admin_user ∧
    (hint.get adminPasswordKey).isString ∧
    (hint.get adminPasswordKey).asString = port.admin_password

/-- Modelled from the spec: the non-gateway part of the external authorization
policy — administrator if the remote address is on the allow-list with valid
administrator credentials, Forbidden when an administrator-only method is
requested without administrator rights, Guest otherwise.  It does not consult
the `X-User` header. -/
def adminRolePolicy (required : Role) (port : Port) (hint : Json)
    (remote : String) : Role :=
  if port.admin_ip.contains remote ∧ adminCredsOk port hint then Role.ADMIN
  else if required = Role.ADMIN then Role.FORBID
  else Role.GUEST

/-- Modelled from the spec: `RPC::requestRole` (declared outside `src/`).
Identified means "trusted via secure-gateway header": the request arrived from
the port's configured secure gateway and carries a nonempty user identity;
otherwise the policy that ignores the user header decides. -/
def requestRole (required : Role) (port : Port) (hint : Json)
    (remote user : String) : Role :=
  if port.secure_gateway_ip ≠ emptyStr ∧ remote = port.secure_gateway_ip ∧
      user ≠ emptyStr then
    Role.IDENTIFIED
  else adminRolePolicy required port hint remote

/-! Connection admission: `ServerHandlerImp::onAccept` / `onClose`.
The per-port counter (`count_[session.port()]`, a signed integer in the
handler) is passed explicitly; the mutex of the source serializes the
increment/decrement, so the sequential model is exact. -/

/-- ServerHandlerImp::onAccept — pre-increments the port's counter and refuses
the connection when the port has a nonzero limit that the new count reaches or
exceeds.  Returns the accept decision and the updated counter. -/
def onAccept (port : Port) (count : Int) : Bool × Int :=
  let c := count + 1
  if port.limit ≠ 0 ∧ (port.limit : Int) ≤ c then (false, c)
  else (true, c)

/-- ServerHandlerImp::onClose — decrements the port's counter. -/
def onClose (count : Int) : Int := count - 1

/-- Results of `n` consecutive `onAccept` calls starting from counter
`count`, with no intervening `onClose`. -/
def acceptResults (port : Port) : Nat → Int → List Bool
  | 0, _ => []
  | n + 1, count =>
    (onAccept port count).1 :: acceptResults port n (onAccept port count).2

/-! Protocol handoff: the two `ServerHandlerImp::onHandoff` overloads. -/

/-- The first request of an accepted session, as the handoff dispatcher and
`isWebsocketUpgrade` read it: the parser's HTTP-upgrade flag and the value of
the `Upgrade` header (`beast::http::message::headers` returns the stored
value, or the empty string when the header is absent). -/
structure HttpRequest where
  upgradeFlag : Bool := false
  upgradeHeaderValue : String := emptyStr
deriving DecidableEq

/-- The `Handoff` result type (ripple/server/Handoff.h, outside `src/`):
`moved = false` by default; the source never sets it (the assignment is
commented out). -/
structure Handoff where
  moved : Bool := false
deriving DecidableEq

/-- Outcome of an `onHandoff` overload: either a locally constructed
`Handoff` value, or delegation to `overlay().onHandoff` with the transport's
request and remote endpoint (the overlay subsystem then owns the result). -/
inductive HandoffOutcome where
  | direct : Handoff → HandoffOutcome
  | overlay : HttpRequest → String → HandoffOutcome
deriving DecidableEq

/-- ServerHandlerImp::isWebsocketUpgrade — the request declares an HTTP
upgrade and its `Upgrade` header value equals "websocket" (an exact,
case-sensitive string comparison in the source). -/
def isWebsocketUpgrade (request : HttpRequest) : Bool :=
  if request.upgradeFlag then request.upgradeHeaderValue = websocketVal
  else false

/-- ServerHandlerImp::onHandoff, ssl_bundle overload (TLS-wrapped sessions):
the wss-upgrade branch returns a default `Handoff` (the `moved = true`
assignment is commented out in the source); the peer branch delegates to the
overlay; otherwise a default `Handoff` falls through to the legacy path. -/
def onHandoffSsl (port : Port) (request : HttpRequest) (remote : String) :
    HandoffOutcome :=
  if port.protocol.contains wssProt ∧ isWebsocketUpgrade request then
    HandoffOutcome.direct {}
  else if port.protocol.contains peerProt then
    HandoffOutcome.overlay request remote
  else HandoffOutcome.direct {}

/-- ServerHandlerImp::onHandoff, plain-socket overload: only the ws-upgrade
branch exists (again returning a default `Handoff`); there is no peer branch,
and every path returns a default `Handoff`. -/
def onHandoffPlain (port : Port) (request : HttpRequest) (remote : String) :
    HandoffOutcome :=
  if port.protocol.contains wsProt ∧ isWebsocketUpgrade request then
    HandoffOutcome.direct {}
  else HandoffOutcome.direct {}

/-! Basic authentication: `ServerHandlerImp::authorized` and its helpers. -/

/-- Whitespace in the sense of `std::isspace` in the default locale, as used
by `boost::trim`. -/
def isSp (c : Char) : Bool :=
  c = ' ' ∨ c = '\t' ∨ c = '\n' ∨ c = '\x0b' ∨ c = '\x0c' ∨ c = '\r'

/-- Trim whitespace from both ends of a character list (`boost::trim`). -/
def trimList (l : List Char) : List Char :=
  ((l.dropWhile isSp).reverse.dropWhile isSp).reverse

/-- Value of a base64 alphabet character, or none for any other character. -/
def b64Val (c : Char) : Option Nat :=
  let n := c.toNat
  if 65 ≤ n ∧ n ≤ 90 then some (n - 65)
  else if 97 ≤ n ∧ n ≤ 122 then some (n - 71)
  else if 48 ≤ n ∧ n ≤ 57 then some (n + 4)
  else if n = 43 then some 62
  else if n = 47 then some 63
  else none

/-- Modelled from the spec: decoding loop of `beast::base64_decode` (outside
`src/`) — six bits are shifted in per alphabet character, a byte is emitted
whenever eight or more bits are pending, and decoding stops at the first
character outside the alphabet. -/
def b64Loop : List Char → Nat → Int → List Nat → List Nat
  | [], _, _, acc => acc.reverse
  | c :: rest, val, valb, acc =>
    match b64Val c with
    | none => acc.reverse
    | some t =>
      let val2 := val * 64 + t
      let valb2 := valb + 6
      if 0 ≤ valb2 then
        b64Loop rest val2 (valb2 - 8) ((val2 / 2 ^ valb2.toNat % 256) :: acc)
      else b64Loop rest val2 valb2 acc

/-- Modelled from the spec: `beast::base64_decode` on a character list. -/
def base64_decode (l : List Char) : List Char :=
  (b64Loop l 0 (-8) []).map Char.ofNat

/-- Index of the first colon in a character list (`std::string::find`). -/
def firstColon : List Char → Option Nat
  | [] => none
  | c :: rest => if c = ':' then some 0 else (firstColon rest).map (· + 1)

/-- ServerHandlerImp::authorized — a port without configured user or password
authorizes everything; otherwise the `authorization` header must carry scheme
"Basic" and the trimmed, base64-decoded credential must split at its first
colon into exactly the configured user and password. -/
def authorized (port : Port) (headers : List (String × String)) : Bool :=
  if port.user = emptyStr ∨ port.password = emptyStr then true
  else
    match headers.lookup authKey with
    | none => false
    | some v =>
      if v.data.take 6 ≠ basicPrefix.data then false
      else
        let decoded := base64_decode (trimList (v.data.drop 6))
        match firstColon decoded with
        | none => false
        | some n =>
          decoded.take n = port.user.data ∧
          decoded.drop (n + 1) = port.password.data

/-! The JSON-RPC pipeline: `ServerHandlerImp::processRequest`. -/

/-- The per-request bundle handed to the external command executor
(`RPC::Context`): the effective params (with the injected `command` member),
the resolved role, and the identity strings.  The journal, application,
network-operations and coroutine handles carried by the C++ struct have no
observable content at this layer. -/
structure Context where
  params : Json
  role : Role
  user : String
  forwardedFor : String

/-- External collaborators of `processRequest`, kept abstract: the maximum
request size (`RPC::Tuning::maxRequestSize`, defined outside `src/`), the
role-requirement policy (`RPC::roleRequired`), the command executor
(`RPC::doCommand`), and the disconnect verdicts of the resource manager's two
kinds of consumer handles. -/
structure RpcEnv where
  maxRequestSize : Nat
  roleRequired : String → Role
  executor : Context → Json
  unlimitedDisconnect : Bool
  inboundDisconnect : Bool

/-- An HTTP reply as handed to `HTTPReply`: status code and the content
string (for a 200 reply the serialized, newline-terminated JSON body). -/
structure HTTPResponse where
  status : Nat
  body : String

/-- Observable outcome of one `processRequest` run: the reply, how many times
the resource consumer was charged, and the `Context` handed to the command
executor when dispatch was reached. -/
structure ProcessResult where
  response : HTTPResponse
  charges : Nat
  context : Option Context

/-- The role-resolution hint: the first element of the `params` array when
`params` is a nonempty array whose first element is an object, otherwise an
empty object (lines 284-295 of the source). -/
def hintOf (jsonRPC : Json) : Json :=
  if jsonRPC.isObject ∧ jsonRPC.hasMember paramsKey ∧
      (jsonRPC.get paramsKey).isArray ∧ 0 < (jsonRPC.get paramsKey).arrSize ∧
      ((jsonRPC.get paramsKey).arrGet 0).isObject then
    (jsonRPC.get paramsKey).arrGet 0
  else Json.obj []

/-- The role `processRequest` resolves for a parsed request body: the policy
keyed by the request id picks the requirement, and `requestRole` combines it
with the hint, remote address and `X-User` value. -/
def resolvedRole (env : RpcEnv) (port : Port) (jsonRPC : Json)
    (remote user : String) : Role :=
  requestRole (env.roleRequired ((jsonRPC.get idKey).asString)) port
    (hintOf jsonRPC) remote user

/-- Disconnect verdict of the consumer chosen for a role: privileged roles get
the unlimited handle, everyone else the per-endpoint inbound handle. -/
def disconnectFor (env : RpcEnv) (role : Role) : Bool :=
  if isUnlimited role then env.unlimitedDisconnect else env.inboundDisconnect

/-- Params normalization (lines 334-352 of the source): a null (or absent)
`params` member becomes an empty object; otherwise the member must be a
one-element array whose sole element is an object, which becomes the
effective params; every other shape is rejected. -/
def normalizeParams (jsonRPC : Json) : Option Json :=
  let params0 := jsonRPC.get paramsKey
  if params0.isNull then some (Json.obj [])
  else if ¬ params0.isArray ∨ params0.arrSize ≠ 1 then none
  else if ¬ (params0.arrGet 0).isObject then none
  else some (params0.arrGet 0)

/-- ServerHandlerImp::processRequest, translated branch for branch.  The raw
body is given as its byte size plus its parse result (`none` when JSON
parsing fails); `remote` is the request's remote address; `forwardedFor0` and
`user0` are the `X-Forwarded-For` and `X-User` header values read by
`processSession`. -/
def processRequest (env : RpcEnv) (port : Port) (bodySize : Nat)
    (parsed : Option Json) (remote forwardedFor0 user0 : String) :
    ProcessResult :=
  if env.maxRequestSize < bodySize then ⟨⟨400, unableMsg⟩, 0, none⟩
  else
    match parsed with
    | none => ⟨⟨400, unableMsg⟩, 0, none⟩
    | some jsonRPC =>
      if ¬ jsonRPC.isObject then ⟨⟨400, unableMsg⟩, 0, none⟩
      else
        let methodJ := jsonRPC.get methodKey
        if methodJ.isNull then ⟨⟨400, nullMethodMsg⟩, 0, none⟩
        else if ¬ methodJ.isString then ⟨⟨400, notStringMsg⟩, 0, none⟩
        else
          let role := resolvedRole env port jsonRPC remote user0
          let forwardedFor :=
            if role ≠ Role.IDENTIFIED then emptyStr else forwardedFor0
          let user := if role ≠ Role.IDENTIFIED then emptyStr else user0
          if disconnectFor env role then ⟨⟨503, overloadedMsg⟩, 0, none⟩
          else
            let strMethod := methodJ.asString
            if strMethod = emptyStr then ⟨⟨400, emptyMethodMsg⟩, 0, none⟩
            else
              match normalizeParams jsonRPC with
              | none => ⟨⟨400, paramsMsg⟩, 0, none⟩
              | some p =>
                if role = Role.FORBID then ⟨⟨403, forbiddenMsg⟩, 0, none⟩
                else
                  let params := p.set commandKey (Json.str strMethod)
                  let ctx : Context := ⟨params, role, user, forwardedFor⟩
                  let result := env.executor ctx
                  let shaped :=
                    if result.hasMember errorKey then
                      (result.set statusKey (Json.str errorKey)).set
                        requestKey params
                    else result.set statusKey (Json.str successVal)
                  let reply := (Json.obj []).set resultKey shaped
                  ⟨⟨200, reply.serialize ++ newlineStr⟩, 1, some ctx⟩

/-- The resolved role of an optionally parsed body (used to state properties
of whole runs; for an unparseable body the role plays no part). -/
def resolvedRoleOpt (env : RpcEnv) (port : Port) (parsed : Option Json)
    (remote user : String) : Role :=
  resolvedRole env port (parsed.getD (Json.obj [])) remote user

/-! Concrete fixtures used by witnesses and counterexamples. -/

/-- A port with connection limit 1. -/
def portL1 : Port := { limit := 1 }

/-- A port with connection limit 3. -/
def portL3 : Port := { limit := 3 }

/-- A TLS-WebSocket port. -/
def wssPort : Port := { protocol := [wssProt] }

/-- A peer-protocol port. -/
def peerPort : Port := { protocol := [peerProt] }

/-- A sample remote endpoint. -/
def remoteA : String := "10.0.0.1"

/-- A lowercase websocket upgrade request. -/
def wsUpgradeReq : HttpRequest :=
  { upgradeFlag := true, upgradeHeaderValue := websocketVal }

/-- An upgrade request with the common capitalization of the header value. -/
def wsUpgradeReqCaps : HttpRequest :=
  { upgradeFlag := true, upgradeHeaderValue := "WebSocket" }

/-- A request that is no upgrade at all. -/
def plainReq : HttpRequest := {}

/-! C10 — the counter always increments. -/

/-- C10: every `onAccept` call increments the per-port counter by exactly one,
whether the connection is admitted or refused (there is no rollback on the
refusal path), and only `onClose` decrements it, restoring the old value. -/
theorem onAccept_always_increments (port : Port) (count : Int) :
    (onAccept port count).2 = count + 1 ∧
    onClose (onAccept port count).2 = count := by
  have h2 : (onAccept port count).2 = count + 1 := by
    simp only [onAccept]
    split <;> rfl
  exact ⟨h2, by rw [h2]; simp [onClose]⟩

/-! C3 — the connection limit is enforced one connection early. -/

/-- C3 counterexample: with limit L = 1 the claim predicts one successful
accept followed by a refusal, but already the first `onAccept` from a zero
counter is refused (the source refuses when the post-increment count reaches
or exceeds the limit, not only when it exceeds it). -/
theorem onAccept_limit_counterexample :
    acceptResults portL1 2 0 = [false, false] := by decide

/-- A refusal-terminated run: starting `n + 1` accepts from counter `c` with
`c + n + 1` exactly at the nonzero limit yields `n` successes and then one
refusal. -/
theorem acceptResults_run (port : Port) :
    ∀ (n : Nat) (c : Int), port.limit ≠ 0 →
      c + (n : Int) + 1 = (port.limit : Int) →
      acceptResults port (n + 1) c = List.replicate n true ++ [false] := by
  intro n
  induction n with
  | zero =>
    intro c hne hc
    show (onAccept port c).1 :: acceptResults port 0 (onAccept port c).2 = _
    have h1 : (onAccept port c).1 = false := by
      simp only [onAccept]
      split
      · rfl
      · next hcond =>
        exfalso
        exact hcond ⟨hne, by push_cast at hc; omega⟩
    rw [h1]
    rfl
  | succ m ih =>
    intro c hne hc
    show (onAccept port c).1 :: acceptResults port (m + 1) (onAccept port c).2 = _
    have h2 : (onAccept port c).2 = c + 1 := by
      simp only [onAccept]; split <;> rfl
    have h1 : (onAccept port c).1 = true := by
      simp only [onAccept]
      split
      · next hcond => exfalso; have := hcond.2; push_cast at hc; omega
      · rfl
    rw [h1, h2, ih (c + 1) hne (by push_cast at hc ⊢; omega)]
    rfl

/-- C3 (amended): for a port with nonzero limit L, starting from a zero
counter the first L - 1 `onAccept` calls succeed and the L-th is refused
(the claimed L successes are impossible: capacity is L - 1, not L); and after
one `onClose` from the (L-1)-successes state, the next `onAccept` succeeds
again. -/
theorem onAccept_limit_offByOne (port : Port) (h : 1 ≤ port.limit) :
    acceptResults port port.limit 0 =
      List.replicate (port.limit - 1) true ++ [false] ∧
    (onAccept port (onClose ((port.limit : Int) - 1))).1 = true := by
  constructor
  · have hrun := acceptResults_run port (port.limit - 1) 0 (by omega)
      (by omega)
    have hn : port.limit - 1 + 1 = port.limit := by omega
    rw [hn] at hrun
    exact hrun
  · simp only [onClose, onAccept]
    split
    · next hc => exfalso; have := hc.2; omega
    · rfl

/-- C3 witness: the amended claim at limit 3 — two successes, then refusal;
after a close, an accept succeeds again. -/
theorem onAccept_limit_offByOne_witness :
    acceptResults portL3 3 0 = [true, true, false] ∧
    (onAccept portL3 (onClose 2)).1 = true := by
  have h := onAccept_limit_offByOne portL3 (by decide)
  constructor
  · have h1 := h.1; simpa using h1
  · have h2 := h.2; simpa using h2

/-! C4 — the wss-upgrade branch does not actually hand off. -/

/-- C4 counterexample: on a wss port with a genuine websocket upgrade the
dispatcher returns a default `Handoff` (the `moved = true` assignment is
commented out in the source), so the session is not handed off; and the
header-value comparison is case-sensitive, so the common capitalization
"WebSocket" is not recognized as an upgrade, contradicting the claimed
case-insensitive comparison. -/
theorem onHandoff_wss_counterexample :
    onHandoffSsl wssPort wsUpgradeReq remoteA =
      HandoffOutcome.direct { moved := false } ∧
    isWebsocketUpgrade wsUpgradeReqCaps = false := by
  exact ⟨rfl, rfl⟩

/-- C4 (amended): on a port offering the TLS-WebSocket protocol, a websocket
upgrade request yields a default `Handoff` whose `moved` flag is unset — the
pipeline retains the session rather than transferring it to the WebSocket
engine; and a request counts as a websocket upgrade exactly when it declares
an HTTP upgrade and its `Upgrade` header value equals "websocket" by exact,
case-sensitive comparison. -/
theorem onHandoff_wss_retained :
    (∀ (port : Port) (request : HttpRequest) (remote : String),
      port.protocol.contains wssProt = true →
      isWebsocketUpgrade request = true →
      onHandoffSsl port request remote =
        HandoffOutcome.direct { moved := false }) ∧
    (∀ request : HttpRequest,
      isWebsocketUpgrade request = true ↔
        request.upgradeFlag = true ∧
          request.upgradeHeaderValue = websocketVal) := by
  constructor
  · intro port request remote h1 h2
    unfold onHandoffSsl
    rw [if_pos ⟨h1, h2⟩]
  · intro request
    unfold isWebsocketUpgrade
    cases hf : request.upgradeFlag <;> simp [hf]

/-- C4 witness: the amended claim at a concrete wss port and upgrade
request. -/
theorem onHandoff_wss_retained_witness :
    onHandoffSsl wssPort wsUpgradeReq remoteA =
      HandoffOutcome.direct { moved := false } ∧
    isWebsocketUpgrade wsUpgradeReq = true := by
  refine ⟨onHandoff_wss_retained.1 wssPort wsUpgradeReq remoteA (by decide) ?_, ?_⟩
  · exact (onHandoff_wss_retained.2 wsUpgradeReq).mpr ⟨rfl, rfl⟩
  · exact (onHandoff_wss_retained.2 wsUpgradeReq).mpr ⟨rfl, rfl⟩

/-! C5 — only TLS-wrapped sessions are handed to the overlay. -/

/-- C5 counterexample: a peer-protocol port whose session arrived on a plain
socket is not handed to the overlay — the plain-socket `onHandoff` overload
has no peer branch and returns a default (retained) `Handoff`, contradicting
the claim that the handoff happens regardless of TLS wrapping. -/
theorem onHandoff_plain_peer_counterexample :
    onHandoffPlain peerPort plainReq remoteA =
      HandoffOutcome.direct { moved := false } ∧
    onHandoffPlain peerPort plainReq remoteA ≠
      HandoffOutcome.overlay plainReq remoteA := by
  exact ⟨rfl, by decide⟩

/-- C5 (amended): when the wss-upgrade case does not apply and the port
offers the peer protocol, the TLS (ssl_bundle) overload of `onHandoff` hands
the connection to the overlay with the parsed request and remote endpoint —
but only that overload: the plain-socket overload returns a default
`Handoff` on every input and never delegates to the overlay. -/
theorem onHandoff_peer_ssl_only :
    (∀ (port : Port) (request : HttpRequest) (remote : String),
      ¬ (port.protocol.contains wssProt = true ∧
          isWebsocketUpgrade request = true) →
      port.protocol.contains peerProt = true →
      onHandoffSsl port request remote =
        HandoffOutcome.overlay request remote) ∧
    (∀ (port : Port) (request : HttpRequest) (remote : String),
      onHandoffPlain port request remote =
        HandoffOutcome.direct { moved := false }) := by
  constructor
  · intro port request remote h1 h2
    unfold onHandoffSsl
    rw [if_neg h1, if_pos h2]
  · intro port request remote
    unfold onHandoffPlain
    split <;> rfl

/-- C5 witness: the amended claim at a concrete peer port — TLS sessions are
delegated to the overlay, plain sessions are retained. -/
theorem onHandoff_peer_ssl_only_witness :
    onHandoffSsl peerPort plainReq remoteA =
      HandoffOutcome.overlay plainReq remoteA ∧
    onHandoffPlain peerPort plainReq remoteA =
      HandoffOutcome.direct { moved := false } := by
  exact ⟨onHandoff_peer_ssl_only.1 peerPort plainReq remoteA (by decide) (by decide),
    onHandoff_peer_ssl_only.2 peerPort plainReq remoteA⟩

/-! Fixtures and helpers for the pipeline claims. -/

/-- A string can never be the null value. -/
theorem Json.isString_isNull (j : Json) (h : j.isString = true) :
    j.isNull = false := by
  cases j <;> simp [Json.isString, Json.isNull] at *

/-- When `requestRole` does not resolve to Identified it coincides with the
user-independent policy (the `X-User` value only ever gates Identified). -/
theorem requestRole_ne_identified (required : Role) (port : Port)
    (hint : Json) (remote user : String)
    (h : requestRole required port hint remote user ≠ Role.IDENTIFIED) :
    requestRole required port hint remote user =
      adminRolePolicy required port hint remote := by
  unfold requestRole at h ⊢
  by_cases hc : port.secure_gateway_ip ≠ emptyStr ∧
      remote = port.secure_gateway_ip ∧ user ≠ emptyStr
  · rw [if_pos hc] at h
    exact absurd rfl h
  · rw [if_neg hc]

/-- The name of the ping method. -/
def pingMethod : String := "ping"

/-- A well-formed ping request body. -/
def jPing : Json := Json.obj [(methodKey, Json.str pingMethod)]

/-- A permissive environment: guest requirement, executor answering an empty
object, no disconnects. -/
def stubEnv : RpcEnv :=
  ⟨1000, fun _ => Role.GUEST, fun _ => Json.obj [], false, false⟩

/-- Like `stubEnv` but the inbound consumer demands disconnection. -/
def discEnv : RpcEnv :=
  ⟨1000, fun _ => Role.GUEST, fun _ => Json.obj [], false, true⟩

/-- A short method name. -/
def methodA : String := "a"

/-- A body whose `params` member is present but null. -/
def jParamsNull : Json :=
  Json.obj [(methodKey, Json.str methodA), (paramsKey, Json.null)]

/-- A body whose method is the empty string. -/
def jEmptyMethod : Json := Json.obj [(methodKey, Json.str emptyStr)]

/-- A body whose method is a number. -/
def jNumMethod : Json := Json.obj [(methodKey, Json.num 3)]

/-- The serialized success reply of the stub executor. -/
def successBody : String := "\x7b\"result\":\x7b\"status\":\"success\"\x7d\x7d\n"

/-- Sample identity header values. -/
def userA : String := "alice"

def userB : String := "bob"

def ffA : String := "1.1.1.1"

def ffB : String := "2.2.2.2"

/-! C8 — the consumer is charged exactly once, if and only if the request is
fully processed. -/

set_option maxHeartbeats 2000000 in
/-- C8: on every run of `processRequest` the resource consumer is charged
exactly once when the request is fully processed through command dispatch
(HTTP 200, a Context was built), and zero times on every rejection path —
oversized or unparseable body (400), method validation (400), overload (503)
and forbidden role (403) all return before the charge. -/
theorem charge_exactly_once (env : RpcEnv) (port : Port) (bodySize : Nat)
    (parsed : Option Json) (remote forwardedFor0 user0 : String) :
    ((processRequest env port bodySize parsed remote
        forwardedFor0 user0).charges = 0 ∧
      (processRequest env port bodySize parsed remote
        forwardedFor0 user0).response.status ≠ 200 ∧
      (processRequest env port bodySize parsed remote
        forwardedFor0 user0).context = none) ∨
    ((processRequest env port bodySize parsed remote
        forwardedFor0 user0).charges = 1 ∧
      (processRequest env port bodySize parsed remote
        forwardedFor0 user0).response.status = 200 ∧
      (processRequest env port bodySize parsed remote
        forwardedFor0 user0).context.isSome = true) := by
  simp only [processRequest]
  repeat' split
  all_goals first
    | exact Or.inl ⟨rfl, by decide, rfl⟩
    | exact Or.inr ⟨rfl, rfl, rfl⟩

/-! C9 — method validation versus resource admission. -/

/-- C9 counterexample: a request whose method is the empty string, processed
while the inbound consumer demands disconnection, is answered 503 (the
empty-method check sits after the resource-admission gate in the source),
where the claim requires a 400 "method is empty" reply even under
disconnect. -/
theorem empty_method_overload_counterexample :
    processRequest discEnv {} 10 (some jEmptyMethod) remoteA emptyStr
      emptyStr = ⟨⟨503, overloadedMsg⟩, 0, none⟩ := by
  rfl

set_option maxHeartbeats 1000000 in
/-- C9 (amended): an absent or null `method` is rejected 400 "Null method"
and a non-string `method` 400 "method is not string", both before resource
admission (for every disconnect verdict); the empty-string check, however,
runs after the 503 short-circuit: an empty method is rejected 400
"method is empty" only when the consumer does not demand disconnection, and
is answered 503 when it does. -/
theorem method_validation_order (env : RpcEnv) (port : Port) (bodySize : Nat)
    (jsonRPC : Json) (remote forwardedFor0 user0 : String)
    (hsize : bodySize ≤ env.maxRequestSize)
    (hobj : jsonRPC.isObject = true) :
    ((jsonRPC.get methodKey).isNull = true →
      processRequest env port bodySize (some jsonRPC) remote forwardedFor0
        user0 = ⟨⟨400, nullMethodMsg⟩, 0, none⟩) ∧
    ((jsonRPC.get methodKey).isNull = false →
      (jsonRPC.get methodKey).isString = false →
      processRequest env port bodySize (some jsonRPC) remote forwardedFor0
        user0 = ⟨⟨400, notStringMsg⟩, 0, none⟩) ∧
    ((jsonRPC.get methodKey).isString = true →
      (jsonRPC.get methodKey).asString = emptyStr →
      disconnectFor env (resolvedRole env port jsonRPC remote user0) = false →
      processRequest env port bodySize (some jsonRPC) remote forwardedFor0
        user0 = ⟨⟨400, emptyMethodMsg⟩, 0, none⟩) ∧
    ((jsonRPC.get methodKey).isString = true →
      (jsonRPC.get methodKey).asString = emptyStr →
      disconnectFor env (resolvedRole env port jsonRPC remote user0) = true →
      processRequest env port bodySize (some jsonRPC) remote forwardedFor0
        user0 = ⟨⟨503, overloadedMsg⟩, 0, none⟩) := by
  have hnotlt : ¬ env.maxRequestSize < bodySize := by omega
  refine ⟨?_, ?_, ?_, ?_⟩
  · intro hnull
    simp [processRequest, hnotlt, hobj, hnull]
  · intro hnull hnstr
    simp [processRequest, hnotlt, hobj, hnull, hnstr]
  · intro hstr hempty hdisc
    have hnull := Json.isString_isNull _ hstr
    simp [processRequest, hnotlt, hobj, hnull, hstr, hempty, hdisc]
  · intro hstr hempty hdisc
    have hnull := Json.isString_isNull _ hstr
    simp [processRequest, hnotlt, hobj, hnull, hstr, hempty, hdisc]

/-- C9 witness: the amended claim at a concrete non-string method — a numeric
method is rejected 400 "method is not string" before any resource check. -/
theorem method_validation_order_witness :
    processRequest stubEnv {} 10 (some jNumMethod) remoteA emptyStr emptyStr
      = ⟨⟨400, notStringMsg⟩, 0, none⟩ := by
  exact (method_validation_order stubEnv {} 10 jNumMethod remoteA emptyStr
    emptyStr (by decide) rfl).2.1 rfl rfl

/-! C6 — params normalization. -/

/-- An array can never be the null value. -/
theorem Json.isArray_isNull (j : Json) (h : j.isArray = true) :
    j.isNull = false := by
  cases j <;> simp [Json.isArray, Json.isNull] at *

/-- C6 counterexample: a body whose `params` member is present but null is
not rejected — the source's falsiness test treats it like an absent member,
so the request dispatches with an empty effective params object and returns
200, where the claim requires 400 "params unparseable" for every present
`params` that is not a one-element array of an object. -/
theorem params_null_counterexample :
    processRequest stubEnv {} 10 (some jParamsNull) remoteA emptyStr emptyStr
      = ⟨⟨200, successBody⟩, 1,
        some ⟨Json.obj [(commandKey, Json.str methodA)], Role.GUEST,
          emptyStr, emptyStr⟩⟩ := by
  rfl

set_option maxHeartbeats 1000000 in
/-- C6 (amended): for a request that reaches params normalization (envelope
and method valid, no disconnect), an absent or JSON-null `params` member
yields an empty effective params object; a present, non-null `params` that is
not a one-element array whose sole element is an object is rejected 400
"params unparseable"; otherwise the sole element becomes the effective params
object handed to dispatch (with the injected `command` member). -/
theorem params_normalization (env : RpcEnv) (port : Port) (bodySize : Nat)
    (jsonRPC : Json) (remote forwardedFor0 user0 : String)
    (hsize : bodySize ≤ env.maxRequestSize)
    (hobj : jsonRPC.isObject = true)
    (hstr : (jsonRPC.get methodKey).isString = true)
    (hne : ¬ (jsonRPC.get methodKey).asString = emptyStr)
    (hdisc : disconnectFor env (resolvedRole env port jsonRPC remote user0)
      = false) :
    ((jsonRPC.get paramsKey).isNull = true →
      normalizeParams jsonRPC = some (Json.obj []) ∧
      (resolvedRole env port jsonRPC remote user0 ≠ Role.FORBID →
        ∃ c, (processRequest env port bodySize (some jsonRPC) remote
            forwardedFor0 user0).context = some c ∧
          c.params = (Json.obj []).set commandKey
            (Json.str ((jsonRPC.get methodKey).asString)))) ∧
    ((jsonRPC.get paramsKey).isNull = false →
      ¬ ((jsonRPC.get paramsKey).isArray = true ∧
          (jsonRPC.get paramsKey).arrSize = 1 ∧
          ((jsonRPC.get paramsKey).arrGet 0).isObject = true) →
      processRequest env port bodySize (some jsonRPC) remote forwardedFor0
        user0 = ⟨⟨400, paramsMsg⟩, 0, none⟩) ∧
    (∀ p0 : Json, (jsonRPC.get paramsKey).isArray = true →
      (jsonRPC.get paramsKey).arrSize = 1 →
      (jsonRPC.get paramsKey).arrGet 0 = p0 →
      p0.isObject = true →
      normalizeParams jsonRPC = some p0 ∧
      (resolvedRole env port jsonRPC remote user0 ≠ Role.FORBID →
        ∃ c, (processRequest env port bodySize (some jsonRPC) remote
            forwardedFor0 user0).context = some c ∧
          c.params = p0.set commandKey
            (Json.str ((jsonRPC.get methodKey).asString)))) := by
  have hnotlt : ¬ env.maxRequestSize < bodySize := by omega
  have hnull := Json.isString_isNull _ hstr
  refine ⟨?_, ?_, ?_⟩
  · intro hpnull
    have hnorm : normalizeParams jsonRPC = some (Json.obj []) := by
      simp [normalizeParams, hpnull]
    refine ⟨hnorm, ?_⟩
    intro hforbid
    simp [processRequest, hnotlt, hobj, hnull, hstr, hne, hdisc, hnorm,
      hforbid]
  · intro hpnull hshape
    have hnorm : normalizeParams jsonRPC = none := by
      unfold normalizeParams
      by_cases hA : (jsonRPC.get paramsKey).isArray = true
      · by_cases hB : (jsonRPC.get paramsKey).arrSize = 1
        · by_cases hC : ((jsonRPC.get paramsKey).arrGet 0).isObject = true
          · exact absurd ⟨hA, hB, hC⟩ hshape
          · simp [hpnull, hA, hB, hC]
        · simp [hpnull, hB]
      · simp [hpnull, hA]
    simp [processRequest, hnotlt, hobj, hnull, hstr, hne, hdisc, hnorm]
  · intro p0 hA hB hp0 hC
    have hpnull := Json.isArray_isNull _ hA
    have hnorm : normalizeParams jsonRPC = some p0 := by
      simp [normalizeParams, hpnull, hA, hB, hp0, hC]
    refine ⟨hnorm, ?_⟩
    intro hforbid
    simp [processRequest, hnotlt, hobj, hnull, hstr, hne, hdisc, hnorm,
      hforbid]

/-- C6 witness: the amended claim at a concrete body without `params` — the
effective params is the empty object, and dispatch receives it with the
injected command. -/
theorem params_normalization_witness :
    normalizeParams jPing = some (Json.obj []) ∧
    ∃ c, (processRequest stubEnv {} 10 (some jPing) remoteA emptyStr
        emptyStr).context = some c ∧
      c.params = (Json.obj []).set commandKey
        (Json.str ((jPing.get methodKey).asString)) := by
  have h := (params_normalization stubEnv {} 10 jPing remoteA emptyStr
    emptyStr (by decide) rfl rfl (by decide) rfl).1 rfl
  exact ⟨h.1, h.2 (by decide)⟩

/-! C1 — response shaping and HTTP status for dispatched requests. -/

set_option maxHeartbeats 1000000 in
/-- C1: every request that reaches command dispatch is answered with HTTP
status 200, whether or not the executor's result carries an `error` member;
when it does, the result is decorated with `status: error` and the effective
params object (with its injected `command` member) is echoed under `request`,
otherwise with `status: success`; the body is the serialization of an object
with the decorated result under `result`, followed by a newline. -/
theorem processRequest_dispatch_response (env : RpcEnv) (port : Port)
    (bodySize : Nat) (jsonRPC p0 : Json)
    (remote forwardedFor0 user0 : String)
    (hsize : bodySize ≤ env.maxRequestSize)
    (hobj : jsonRPC.isObject = true)
    (hstr : (jsonRPC.get methodKey).isString = true)
    (hne : ¬ (jsonRPC.get methodKey).asString = emptyStr)
    (hdisc : disconnectFor env (resolvedRole env port jsonRPC remote user0)
      = false)
    (hnorm : normalizeParams jsonRPC = some p0)
    (hforbid : resolvedRole env port jsonRPC remote user0 ≠ Role.FORBID) :
    processRequest env port bodySize (some jsonRPC) remote forwardedFor0
        user0 =
      (let role := resolvedRole env port jsonRPC remote user0
       let params := p0.set commandKey
         (Json.str ((jsonRPC.get methodKey).asString))
       let ctx : Context := ⟨params, role,
         if role ≠ Role.IDENTIFIED then emptyStr else user0,
         if role ≠ Role.IDENTIFIED then emptyStr else forwardedFor0⟩
       let result := env.executor ctx
       let shaped := if result.hasMember errorKey = true then
           (result.set statusKey (Json.str errorKey)).set requestKey params
         else result.set statusKey (Json.str successVal)
       (⟨⟨200, ((Json.obj []).set resultKey shaped).serialize ++ newlineStr⟩,
         1, some ctx⟩ : ProcessResult)) := by
  have hnotlt : ¬ env.maxRequestSize < bodySize := by omega
  have hnull := Json.isString_isNull _ hstr
  simp [processRequest, hnotlt, hobj, hnull, hstr, hne, hdisc, hnorm,
    hforbid]

/-- C1 witness: the ping request against the stub executor is answered 200
with the serialized success envelope. -/
theorem processRequest_dispatch_response_witness :
    processRequest stubEnv {} 10 (some jPing) remoteA emptyStr emptyStr =
      ⟨⟨200, successBody⟩, 1,
        some ⟨Json.obj [(commandKey, Json.str pingMethod)], Role.GUEST,
          emptyStr, emptyStr⟩⟩ := by
  have h := processRequest_dispatch_response stubEnv {} 10 jPing
    (Json.obj []) remoteA emptyStr emptyStr (by decide) rfl rfl (by decide)
    rfl rfl (by decide)
  rw [h]
  rfl

/-! C2 — identity headers never reach the Context without Identified role. -/

set_option maxHeartbeats 1000000 in
/-- C2: when the resolved role is not Identified, the `X-Forwarded-For` and
`X-User` values are cleared before the Context is built: two runs that differ
only in those two header values produce identical results, and any Context
built carries empty identity strings. -/
theorem identity_headers_cleared (env : RpcEnv) (port : Port) (bodySize : Nat)
    (parsed : Option Json) (remote ff1 u1 ff2 u2 : String)
    (h1 : resolvedRoleOpt env port parsed remote u1 ≠ Role.IDENTIFIED)
    (h2 : resolvedRoleOpt env port parsed remote u2 ≠ Role.IDENTIFIED) :
    processRequest env port bodySize parsed remote ff1 u1 =
      processRequest env port bodySize parsed remote ff2 u2 ∧
    (∀ c : Context,
      (processRequest env port bodySize parsed remote ff1 u1).context =
        some c →
      c.user = emptyStr ∧ c.forwardedFor = emptyStr) := by
  cases parsed with
  | none =>
    refine ⟨rfl, ?_⟩
    intro c hc
    simp only [processRequest] at hc
    split at hc <;> exact absurd hc (by simp)
  | some j =>
    have key : ∀ u : String,
        resolvedRole env port j remote u ≠ Role.IDENTIFIED →
        resolvedRole env port j remote u =
          adminRolePolicy (env.roleRequired ((j.get idKey).asString)) port
            (hintOf j) remote := by
      intro u hu
      exact requestRole_ne_identified _ port (hintOf j) remote u hu
    have h1j : resolvedRole env port j remote u1 ≠ Role.IDENTIFIED := h1
    have h2j : resolvedRole env port j remote u2 ≠ Role.IDENTIFIED := h2
    have hk1 := key u1 h1j
    have hk2 := key u2 h2j
    have hpol : adminRolePolicy (env.roleRequired ((j.get idKey).asString))
        port (hintOf j) remote ≠ Role.IDENTIFIED := hk1 ▸ h1j
    constructor
    · simp only [processRequest]
      rw [hk1, hk2]
      simp [hpol]
    · intro c hc
      simp only [processRequest] at hc
      rw [hk1] at hc
      simp only [hpol, ne_eq, not_false_eq_true, if_true] at hc
      repeat' split at hc
      any_goals exact Option.noConfusion hc
      all_goals
        have hx := Option.some.inj hc
      all_goals subst hx
      all_goals exact ⟨rfl, rfl⟩

/-- C2 witness: two concrete runs differing only in the identity headers
produce identical results, and the Context carries empty identity strings. -/
theorem identity_headers_cleared_witness :
    processRequest stubEnv {} 10 (some jPing) remoteA ffA userA =
      processRequest stubEnv {} 10 (some jPing) remoteA ffB userB ∧
    (processRequest stubEnv {} 10 (some jPing) remoteA ffA userA).context =
      some ⟨Json.obj [(commandKey, Json.str pingMethod)], Role.GUEST,
        emptyStr, emptyStr⟩ := by
  have h := identity_headers_cleared stubEnv {} 10 (some jPing) remoteA ffA
    userA ffB userB (by decide) (by decide)
  exact ⟨h.1, rfl⟩

/-! C7 — basic authentication. -/

/-- The configured username of the round-trip fixture. -/
def userStr : String := "user"

/-- The configured password of the round-trip fixture. -/
def passStr : String := "pass"

/-- A port guarded by user/password credentials. -/
def p7 : Port := { user := userStr, password := passStr }

/-- The base64 encoding of the credential pair of the fixture, as the
character list "dXNlcjpwYXNz". -/
def credsB64 : List Char :=
  ['d', 'X', 'N', 'l', 'c', 'j', 'p', 'w', 'Y', 'X', 'N', 'z']

/-- The alphabet values of `credsB64`. -/
def credsVals : List Nat := [29, 23, 13, 37, 28, 35, 41, 48, 24, 23, 13, 51]

/-- The decoded credential pair as the character list "user:pass". -/
def userPass : List Char := ['u', 's', 'e', 'r', ':', 'p', 'a', 's', 's']

/-- A header map carrying a Basic authorization with the given base64
payload. -/
def mkAuthHeaders (payload : List Char) : List (String × String) :=
  [(authKey, String.mk (basicPrefix.data ++ payload))]

/-- Replace the character at position `i`. -/
def mutate (l : List Char) (i : Nat) (c : Char) : List Char :=
  l.take i ++ c :: l.drop (i + 1)

/-- The base64 decoding loop over alphabet values (used to reason about
`b64Loop` once the characters are known to be in the alphabet). -/
def valLoop : List Nat → Nat → Int → List Nat → List Nat
  | [], _, _, acc => acc.reverse
  | t :: rest, val, valb, acc =>
    let val2 := val * 64 + t
    let valb2 := valb + 6
    if 0 ≤ valb2 then
      valLoop rest val2 (valb2 - 8) ((val2 / 2 ^ valb2.toNat % 256) :: acc)
    else valLoop rest val2 valb2 acc

/-- Characterization of a successful alphabet lookup: the value is below 64
and determines the character code. -/
theorem b64Val_inv (c : Char) (t : Nat) (h : b64Val c = some t) :
    t < 64 ∧ c.toNat =
      (if t < 26 then t + 65 else if t < 52 then t + 71
       else if t < 62 then t - 4 else if t = 62 then 43 else 47) := by
  simp only [b64Val] at h
  split_ifs at h with h1 h2 h3 h4 h5
  all_goals
    have ht := Option.some.inj h
    constructor
    · omega
    · split_ifs <;> omega

/-- Two alphabet characters with the same value are equal. -/
theorem b64Val_inj (c c2 : Char) (t : Nat) (h : b64Val c = some t)
    (h2 : b64Val c2 = some t) : c = c2 := by
  have i1 := (b64Val_inv c t h).2
  have i2 := (b64Val_inv c2 t h2).2
  have hnat : c.toNat = c2.toNat := i1.trans i2.symm
  calc c = Char.ofNat c.toNat := (Char.ofNat_toNat c).symm
    _ = Char.ofNat c2.toNat := by rw [hnat]
    _ = c2 := Char.ofNat_toNat c2

/-- Alphabet characters are not whitespace. -/
theorem b64Val_not_space (c : Char) (t : Nat) (h : b64Val c = some t) :
    isSp c = false := by
  have hinv := (b64Val_inv c t h).2
  have h43 : 43 ≤ c.toNat := by split_ifs at hinv <;> omega
  apply decide_eq_false
  intro hor
  rcases hor with hh | hh | hh | hh | hh | hh <;>
    (subst hh; exact absurd h43 (by decide))

/-- The position reported by `firstColon` holds a colon. -/
theorem firstColon_spec :
    ∀ (s : List Char) (n : Nat), firstColon s = some n →
      s.get? n = some ':' := by
  intro s
  induction s with
  | nil => intro n h; simp [firstColon] at h
  | cons a as ih =>
    intro n h
    unfold firstColon at h
    split at h
    · next ha =>
      have hn := Option.some.inj h
      subst hn
      simpa using ha
    · next ha =>
      cases hf : firstColon as with
      | none => rw [hf] at h; simp at h
      | some m =>
        rw [hf] at h
        simp only [Option.map_some'] at h
        have hn := Option.some.inj h
        subst hn
        simpa using ih m hf

/-- A successful `firstColon` means the list contains a colon. -/
theorem firstColon_some_mem (s : List Char) (n : Nat)
    (h : firstColon s = some n) : ':' ∈ s := by
  have hg := firstColon_spec s n h
  exact List.get?_mem hg

/-- Decoding stops at the first character outside the alphabet: everything
after it is ignored. -/
theorem b64Loop_append_stop (c : Char) (hv : b64Val c = none) :
    ∀ (xs ys : List Char) (v : Nat) (b : Int) (a : List Nat),
      b64Loop (xs ++ c :: ys) v b a = b64Loop xs v b a := by
  intro xs
  induction xs with
  | nil =>
    intro ys v b a
    simp [b64Loop, hv]
  | cons x xs ih =>
    intro ys v b a
    simp only [List.cons_append, b64Loop]
    cases hx : b64Val x with
    | none => rfl
    | some t =>
      simp only []
      split <;> exact ih ys _ _ _

/-- On a list of alphabet characters, `b64Loop` computes `valLoop` of the
corresponding values. -/
theorem b64Loop_eq_valLoop :
    ∀ (l : List Char) (vs : List Nat), l.map b64Val = vs.map some →
      ∀ (v : Nat) (b : Int) (a : List Nat), b64Loop l v b a = valLoop vs v b a := by
  intro l
  induction l with
  | nil =>
    intro vs h v b a
    cases vs with
    | nil => rfl
    | cons t ts => simp at h
  | cons x xs ih =>
    intro vs h v b a
    cases vs with
    | nil => simp at h
    | cons t ts =>
      simp only [List.map_cons, List.cons.injEq] at h
      simp only [b64Loop, valLoop, h.1]
      split <;> exact ih ts h.2 _ _ _

/-- Trimming does nothing when both ends are non-whitespace. -/
theorem trimList_eq_self (l : List Char)
    (h1 : ∀ x : Char, l.head? = some x → isSp x = false)
    (h2 : ∀ x : Char, l.getLast? = some x → isSp x = false) :
    trimList l = l := by
  unfold trimList
  have hd : l.dropWhile isSp = l := by
    cases l with
    | nil => rfl
    | cons a as =>
      rw [List.dropWhile_cons, h1 a rfl]
      simp
  rw [hd]
  have hl : l.reverse.dropWhile isSp = l.reverse := by
    cases hr : l.reverse with
    | nil => rfl
    | cons a as =>
      rw [List.dropWhile_cons]
      have ha : l.getLast? = some a := by
        rw [← List.head?_reverse, hr]
        rfl
      rw [h2 a ha]
      simp
  rw [hl, List.reverse_reverse]

/-- The characters of the encoded fixture all carry their alphabet values. -/
theorem credsB64_map_b64Val : credsB64.map b64Val = credsVals.map some := by
  decide

/-- Every tail of the encoded fixture ends in the letter z. -/
theorem credsB64_dropTail :
    ∀ k : Fin 12, (credsB64.drop k.val).getLast? = some 'z' := by decide

set_option maxHeartbeats 2000000 in
/-- Decoding any single-value mutation of the fixture's value list never
yields the credential pair: the nine decoded bytes change whenever one
six-bit group changes. -/
theorem mutated_decode_ne :
    ∀ (i : Fin 12) (t : Fin 64), credsVals.get? i.val ≠ some t.val →
      (valLoop (credsVals.take i.val ++ t.val :: credsVals.drop (i.val + 1))
        0 (-8) []).map Char.ofNat ≠ userPass := by decide

/-- Decoding a proper prefix of the fixture never yields the credential pair
(the output is at most eight bytes, the pair has nine). -/
theorem prefix_decode_ne :
    ∀ i : Fin 12,
      (b64Loop (credsB64.take i.val) 0 (-8) []).map Char.ofNat ≠ userPass := by
  decide

/-- Decoding the fixture without its first character never yields the
credential pair. -/
theorem dropOne_decode_ne :
    (b64Loop (credsB64.drop 1) 0 (-8) []).map Char.ofNat ≠ userPass := by
  decide

/-- Reduction of `authorized` at the fixture port: the credential gate is
the split-and-compare check on the decoded payload. -/
theorem authorized_p7_reduce (payload : List Char) :
    authorized p7 (mkAuthHeaders payload) =
      (match firstColon (base64_decode (trimList payload)) with
       | none => false
       | some n => decide
           ((base64_decode (trimList payload)).take n = userStr.data ∧
            (base64_decode (trimList payload)).drop (n + 1) =
              passStr.data)) := by
  unfold authorized mkAuthHeaders
  rw [if_neg (by decide)]
  have hlook : List.lookup authKey
      [(authKey, String.mk (basicPrefix.data ++ payload))] =
      some (String.mk (basicPrefix.data ++ payload)) := by
    simp [List.lookup]
  have htake : (String.mk (basicPrefix.data ++ payload)).data.take 6 =
      basicPrefix.data := by
    show (basicPrefix.data ++ payload).take 6 = basicPrefix.data
    rw [show (6 : Nat) = basicPrefix.data.length from rfl, List.take_left]
  have hdrop : (String.mk (basicPrefix.data ++ payload)).data.drop 6 =
      payload := by
    show (basicPrefix.data ++ payload).drop 6 = payload
    rw [show (6 : Nat) = basicPrefix.data.length from rfl, List.drop_left]
  rw [hlook]
  dsimp only
  rw [if_neg (fun hne => hne htake), hdrop]
  rfl

/-- Soundness of the credential check: if the split-and-compare on a decoded
list succeeds, the list is exactly the credential pair. -/
theorem authorized_check_userPass (s : List Char)
    (h : (match firstColon s with
          | none => false
          | some n => decide (s.take n = userStr.data ∧
              s.drop (n + 1) = passStr.data)) = true) :
    s = userPass := by
  cases hf : firstColon s with
  | none => rw [hf] at h; simp at h
  | some n =>
    rw [hf] at h
    simp only [decide_eq_true_eq] at h
    obtain ⟨h1, h2⟩ := h
    have hcolon := firstColon_spec s n hf
    have hn : n < s.length := by
      by_contra hge
      rw [List.get?_eq_none.mpr (by omega)] at hcolon
      exact Option.noConfusion hcolon
    have hlen : (s.take n).length = 4 := by rw [h1]; rfl
    rw [List.length_take, Nat.min_eq_left (Nat.le_of_lt hn)] at hlen
    subst hlen
    have hget : s.get ⟨4, hn⟩ = ':' := by
      rw [List.get?_eq_get hn] at hcolon
      exact Option.some.inj hcolon
    have hs := (List.take_append_drop 4 s).symm
    rw [List.drop_eq_get_cons hn, hget, h1, h2] at hs
    exact hs.trans rfl

/-- When the mutated character is not whitespace whenever it lands on an end
of the payload, trimming leaves the mutated payload unchanged (the interior
ends are the non-whitespace d and z of the fixture). -/
theorem mutate_trim_eq (i : Nat) (c : Char) (hi : i < 12)
    (h0 : i = 0 → isSp c = false) (h11 : i = 11 → isSp c = false) :
    trimList (mutate credsB64 i c) = mutate credsB64 i c := by
  apply trimList_eq_self
  · intro x hx
    rcases Nat.eq_zero_or_pos i with hz | hpos
    · subst hz
      have hcx : c = x := by
        have hh : (mutate credsB64 0 c).head? = some c := rfl
        rw [hh] at hx
        exact Option.some.inj hx
      rw [← hcx]
      exact h0 rfl
    · obtain ⟨k, rfl⟩ : ∃ k, i = k + 1 := ⟨i - 1, by omega⟩
      have hh : (mutate credsB64 (k + 1) c).head? = some 'd' := by
        simp [mutate, credsB64, List.take_succ_cons]
      rw [hh] at hx
      rw [← Option.some.inj hx]
      decide
  · intro x hx
    by_cases hieq : i = 11
    · subst hieq
      have hm : mutate credsB64 11 c = credsB64.take 11 ++ [c] := by
        simp [mutate, credsB64]
      rw [hm, List.getLast?_concat] at hx
      rw [← Option.some.inj hx]
      exact h11 rfl
    · have hlast : (credsB64.drop (i + 1)).getLast? = some 'z' :=
        credsB64_dropTail ⟨i + 1, by omega⟩
      have hBne : credsB64.drop (i + 1) ≠ [] := by
        intro hnil
        rw [hnil] at hlast
        exact Option.noConfusion hlast
      have hml : (mutate credsB64 i c).getLast? = some 'z' := by
        unfold mutate
        rw [show c :: credsB64.drop (i + 1) =
          [c] ++ credsB64.drop (i + 1) from rfl]
        rw [← List.append_assoc, List.getLast?_append_of_ne_nil _ hBne]
        exact hlast
      rw [hml] at hx
      rw [← Option.some.inj hx]
      decide

/-- Decoding the trimmed single-character mutation of the encoded fixture
never yields the credential pair, for any replacement character. -/
theorem mutated_not_userPass (i : Nat) (c : Char) (hi : i < 12)
    (hne : credsB64.get? i ≠ some c) :
    base64_decode (trimList (mutate credsB64 i c)) ≠ userPass := by
  cases hv : b64Val c with
  | some t =>
    have hsp := b64Val_not_space c t hv
    have htr := mutate_trim_eq i c hi (fun _ => hsp) (fun _ => hsp)
    have ht64 : t < 64 := (b64Val_inv c t hv).1
    have hmap : (mutate credsB64 i c).map b64Val =
        (credsVals.take i ++ t :: credsVals.drop (i + 1)).map some := by
      unfold mutate
      rw [List.map_append, List.map_cons, hv, List.map_take, List.map_drop,
        credsB64_map_b64Val, ← List.map_take, ← List.map_drop,
        ← List.map_cons, ← List.map_append]
    have hdec : base64_decode (mutate credsB64 i c) =
        (valLoop (credsVals.take i ++ t :: credsVals.drop (i + 1))
          0 (-8) []).map Char.ofNat := by
      unfold base64_decode
      rw [b64Loop_eq_valLoop _ _ hmap]
    have hvalne : credsVals.get? i ≠ some t := by
      intro hsome
      have hgb : (credsB64.map b64Val).get? i =
          (credsVals.map some).get? i := by rw [credsB64_map_b64Val]
      rw [List.get?_map, List.get?_map, hsome] at hgb
      cases hcb : credsB64.get? i with
      | none => rw [hcb] at hgb; simp at hgb
      | some ch =>
        rw [hcb] at hgb
        simp only [Option.map_some'] at hgb
        have hchv : b64Val ch = some t := Option.some.inj hgb
        rw [b64Val_inj c ch t hv hchv] at hne
        exact hne hcb
    rw [htr, hdec]
    exact mutated_decode_ne ⟨i, hi⟩ ⟨t, ht64⟩ hvalne
  | none =>
    have hstop : base64_decode (mutate credsB64 i c) =
        (b64Loop (credsB64.take i) 0 (-8) []).map Char.ofNat := by
      unfold base64_decode mutate
      rw [b64Loop_append_stop c hv]
    by_cases hsp : isSp c = true
    · rcases Nat.eq_zero_or_pos i with hz | hpos
      · subst hz
        have htr : trimList (mutate credsB64 0 c) = credsB64.drop 1 := by
          show trimList (c :: credsB64.drop 1) = credsB64.drop 1
          unfold trimList
          rw [List.dropWhile_cons, hsp]
          simp only [if_true]
          decide
        rw [htr]
        exact dropOne_decode_ne
      · by_cases hieq : i = 11
        · subst hieq
          have hm : mutate credsB64 11 c = credsB64.take 11 ++ [c] := by
            simp [mutate, credsB64]
          have htr : trimList (mutate credsB64 11 c) = credsB64.take 11 := by
            rw [hm]
            unfold trimList
            have hdw : (credsB64.take 11 ++ [c]).dropWhile isSp =
                credsB64.take 11 ++ [c] := by
              rw [show credsB64.take 11 ++ [c] =
                'd' :: (['X', 'N', 'l', 'c', 'j', 'p', 'w', 'Y', 'X', 'N']
                  ++ [c]) from rfl]
              rw [List.dropWhile_cons]
              simp [show isSp 'd' = false from by decide]
            rw [hdw, List.reverse_append]
            simp only [List.reverse_cons, List.reverse_nil, List.nil_append,
              List.singleton_append]
            rw [List.dropWhile_cons, hsp]
            simp only [if_true]
            decide
          rw [htr]
          exact prefix_decode_ne ⟨11, by decide⟩
        · have htr := mutate_trim_eq i c hi
            (fun hh => absurd hh (by omega))
            (fun hh => absurd hh (by omega))
          rw [htr, hstop]
          exact prefix_decode_ne ⟨i, hi⟩
    · have hspf : isSp c = false := by
        cases hb : isSp c with
        | false => rfl
        | true => exact absurd hb hsp
      have htr := mutate_trim_eq i c hi (fun _ => hspf) (fun _ => hspf)
      rw [htr, hstop]
      exact prefix_decode_ne ⟨i, hi⟩

set_option maxHeartbeats 1000000 in
/-- C7: `authorized` accepts exactly when the port has no configured
user/password (either field empty) or the headers carry an `authorization`
entry of scheme "Basic" whose trimmed, base64-decoded payload contains a
colon and splits at the first colon into exactly the configured user and
password; in particular `user:pass` encoded as `Basic dXNlcjpwYXNz`
authorizes the fixture port, any structural mismatch yields false via the
equivalence, and every single-character mutation of the encoded value (at
any of its twelve positions, by any other character) fails authorization. -/
theorem authorized_spec :
    (∀ (port : Port) (headers : List (String × String)),
      authorized port headers = true ↔
        ((port.user = emptyStr ∨ port.password = emptyStr) ∨
        ∃ v, headers.lookup authKey = some v ∧
          v.data.take 6 = basicPrefix.data ∧
          ':' ∈ base64_decode (trimList (v.data.drop 6)) ∧
          ∃ n, firstColon (base64_decode (trimList (v.data.drop 6))) =
              some n ∧
            (base64_decode (trimList (v.data.drop 6))).take n =
              port.user.data ∧
            (base64_decode (trimList (v.data.drop 6))).drop (n + 1) =
              port.password.data)) ∧
    authorized p7 (mkAuthHeaders credsB64) = true ∧
    (∀ (i : Nat) (c : Char), i < 12 → credsB64.get? i ≠ some c →
      authorized p7 (mkAuthHeaders (mutate credsB64 i c)) = false) := by
  refine ⟨?_, ?_, ?_⟩
  · intro port headers
    simp only [authorized]
    by_cases hcred : port.user = emptyStr ∨ port.password = emptyStr
    · rw [if_pos hcred]
      simp [hcred]
    · rw [if_neg hcred]
      constructor
      · intro h
        split at h
        · simp at h
        · next v hl =>
          right
          by_cases hb : v.data.take 6 = basicPrefix.data
          · rw [if_neg (fun hne => hne hb)] at h
            split at h
            · simp at h
            · next n hf =>
              have hsplit := decide_eq_true_eq.mp h
              exact ⟨v, hl, hb, firstColon_some_mem _ n hf, n, hf,
                hsplit.1, hsplit.2⟩
          · rw [if_pos hb] at h
            simp at h
      · rintro (hcred2 | ⟨v, hl, hb, hmem, n, hf, h1, h2⟩)
        · exact absurd hcred2 hcred
        · rw [hl]
          dsimp only
          rw [if_neg (fun hne => hne hb), hf]
          simp [h1, h2]
  · rfl
  · intro i c hi hne
    rw [authorized_p7_reduce, Bool.eq_false_iff]
    intro htrue
    exact mutated_not_userPass i c hi hne
      (authorized_check_userPass _ htrue)

/-- C7 witness: the round trip authorizes, a concrete mutation (first
character changed to A) is refused, and via the equivalence a port without
credentials authorizes an empty header map. -/
theorem authorized_spec_witness :
    authorized p7 (mkAuthHeaders credsB64) = true ∧
    authorized p7 (mkAuthHeaders (mutate credsB64 0 'A')) = false ∧
    authorized {} [] = true :=
  ⟨authorized_spec.2.1,
    authorized_spec.2.2 0 'A' (by decide) (by decide),
    (authorized_spec.1 {} []).mpr (Or.inl (Or.inl rfl))⟩
